import Mathlib

/-!
Verification development for a small task-tracking web application
(`todo_app`: `models.py`, `storage.py`, `app.py`).

The embedding works at the level of Unicode code points (`List Char`):
Python strings become Lean `String`/`List Char`, the JSON document on disk
becomes a raw `String`, `json.dumps`/`json.loads` are modelled by an
executable serializer and parser, timestamps and freshly drawn uuids are
explicit environment parameters, and each Flask handler becomes a pure
function from the persisted file state and the request form to the new
file state plus an outcome (success / rejected / crashed).
-/

namespace Todo

/-! ### Character and string helpers (Python `str` semantics) -/

/-- Characters removed by Python's `str.strip()` (ASCII whitespace). -/
def isPySpace (c : Char) : Bool :=
  c = ' ' || c = '\t' || c = '\n' || c = '\r' || c = '\x0b' || c = '\x0c'

/-- Python `str.strip()` on a list of code points. -/
def pyStrip (cs : List Char) : List Char :=
  ((cs.dropWhile isPySpace).reverse.dropWhile isPySpace).reverse

/-- Python `str.strip()` on a `String`. -/
def pyStripS (s : String) : String := String.mk (pyStrip s.data)

/-- Python `str.lower()` (per code point). -/
def lowerS (s : String) : List Char := s.data.map Char.toLower

/-- Whether the first list is a prefix of the second (Boolean). -/
def isPrefixB : List Char → List Char → Bool
  | [], _ => true
  | _ :: _, [] => false
  | a :: as, b :: bs => a == b && isPrefixB as bs

/-- Python's substring test `needle in hay`. -/
def containsSub : List Char → List Char → Bool
  | needle, [] => needle.isEmpty
  | needle, c :: rest => isPrefixB needle (c :: rest) || containsSub needle rest

/-- Strict lexicographic comparison of code-point sequences,
exactly Python's `<` on strings. -/
def charsLt : List Char → List Char → Bool
  | [], [] => false
  | [], _ :: _ => true
  | _ :: _, [] => false
  | a :: as, b :: bs => if a = b then charsLt as bs else decide (a.toNat < b.toNat)

/-- Non-strict lexicographic comparison, Python's `<=` on strings. -/
def charsLe (a b : List Char) : Bool := !(charsLt b a)

/-- Shorthand for the code points of a string literal. -/
def lit (s : String) : List Char := s.data

/-! ### Calendar dates: `datetime.strptime(s, "%Y-%m-%d")` -/

/-- Gregorian leap year test. -/
def isLeap (y : Nat) : Bool := y % 4 = 0 && (y % 100 ≠ 0 || y % 400 = 0)

/-- Number of days in a month. -/
def daysInMonth (y m : Nat) : Nat :=
  if m = 2 then (if isLeap y then 29 else 28)
  else if m = 4 || m = 6 || m = 9 || m = 11 then 30
  else 31

/-- Numeric value of a list of decimal digit characters. -/
def digitsVal (cs : List Char) : Nat := cs.foldl (fun a c => a * 10 + (c.toNat - 48)) 0

/-- Split off the leading run of decimal digits. -/
def spanDigits (cs : List Char) : List Char × List Char :=
  (cs.takeWhile Char.isDigit, cs.dropWhile Char.isDigit)

/-- `datetime.strptime(s, "%Y-%m-%d").date()`: exactly four digits of year,
one or two digits of month and day (CPython's `_strptime` regular
expressions), nothing left over, and a valid calendar date.  Returns
`(year, month, day)` or `none` where Python raises `ValueError`. -/
def parseDate (s : String) : Option (Nat × Nat × Nat) :=
  match s.data with
  | y1 :: y2 :: y3 :: y4 :: '-' :: rest =>
    if y1.isDigit && y2.isDigit && y3.isDigit && y4.isDigit then
      let y := digitsVal [y1, y2, y3, y4]
      let (mcs, r2) := spanDigits rest
      if mcs.length = 1 || mcs.length = 2 then
        match r2 with
        | '-' :: r3 =>
          let (dcs, r4) := spanDigits r3
          if (dcs.length = 1 || dcs.length = 2) && r4.isEmpty then
            let m := digitsVal mcs
            let d := digitsVal dcs
            if 1 ≤ y && 1 ≤ m && m ≤ 12 && 1 ≤ d && d ≤ daysInMonth y m then
              some (y, m, d)
            else none
          else none
        | _ => none
      else none
    else none
  | _ => none

/-- Comparison of calendar dates, as Python compares `date` objects. -/
def dateLt : Nat × Nat × Nat → Nat × Nat × Nat → Bool
  | (y1, m1, d1), (y2, m2, d2) =>
    decide (y1 < y2) || (y1 == y2 && (decide (m1 < m2) || (m1 == m2 && decide (d1 < d2))))

/-! ### The `Task` entity (`models.py`) -/

/-- `models.Task` (a dataclass of seven fields). -/
structure Task where
  title : String
  description : String
  due_date : Option String
  completed : Bool
  id : String
  created_at : String
  updated_at : String
deriving DecidableEq

/-- A lowercase hexadecimal digit. -/
def hexDigit (n : Nat) : Char :=
  if n < 10 then Char.ofNat (48 + n) else Char.ofNat (87 + n)

/-- `uuid.uuid4().hex`: 32 lowercase hex digits drawn from a random value `r`. -/
def uuidHex (r : Nat) : String :=
  String.mk ((List.range 32).map (fun i => hexDigit (r / 16 ^ i % 16)))

/-- Environment for one `Task` construction / deserialization: the random
draw behind `uuid.uuid4().hex` and the two `_now()` reads backing the
`created_at` and `updated_at` default factories. -/
structure TaskEnv where
  idR : Nat
  nowC : String
  nowU : String

/-- `Task.is_overdue` (with `date.today()` an explicit parameter):
false when `due_date` is falsy (absent or empty) or the task is completed;
false when `strptime` fails; otherwise whether the due date is strictly
before today. -/
def is_overdue (t : Task) (today : Nat × Nat × Nat) : Bool :=
  if t.due_date.getD "" = "" || t.completed then false
  else
    match parseDate (t.due_date.getD "") with
    | none => false
    | some d => dateLt d today

/-! ### JSON values -/

/-- A JSON document as produced by `json.loads`.  A float (a number with
a fraction or exponent part, or one of the constants `NaN`, `Infinity`,
`-Infinity`) is kept as its source text: the program never reads a
numeric field — it only iterates over values or calls `.get` on them, and
both behaviours depend only on the value being a float, not on which
float it is. -/
inductive Json where
  | null
  | bool (b : Bool)
  | num (n : Int)
  | fnum (raw : List Char)
  | str (s : String)
  | arr (items : List Json)
  | obj (members : List (String × Json))

/-- The JSON value of an optional due date (`None` becomes `null`). -/
def dueJson : Option String → Json
  | none => .null
  | some d => .str d

/-- The seven key/value pairs of `Task.to_dict`, in source order. -/
def Task.toDictMembers (t : Task) : List (String × Json) :=
  [("title", .str t.title),
   ("description", .str t.description),
   ("due_date", dueJson t.due_date),
   ("completed", .bool t.completed),
   ("id", .str t.id),
   ("created_at", .str t.created_at),
   ("updated_at", .str t.updated_at)]

/-- `Task.to_dict`: the JSON object with the seven fields, in source order. -/
def Task.to_dict (t : Task) : Json := .obj t.toDictMembers

/-- Python `dict.get` on a JSON object (later duplicate keys win, as in a
`dict` built from parsed JSON). -/
def jget (k : String) : List (String × Json) → Option Json
  | [] => none
  | (k2, v) :: rest =>
    match jget k rest with
    | some w => some w
    | none => if k == k2 then some v else none

/-- Read a string-valued key, falling back to a default. -/
def getStr (o : Option Json) (dflt : String) : String :=
  match o with
  | some (.str s) => s
  | _ => dflt

/-- Read an optional string-valued key (`null` and absence both give `none`). -/
def getOptStr (o : Option Json) : Option String :=
  match o with
  | some (.str s) => some s
  | _ => none

/-- Read a boolean-valued key, falling back to a default. -/
def getBool (o : Option Json) (dflt : Bool) : Bool :=
  match o with
  | some (.bool b) => b
  | _ => dflt

/-- `Task.from_dict`: succeeds exactly on JSON objects (on anything else
Python raises `AttributeError` at `data.get`); each missing key falls back
to its default (`""`, `None`, `False`, a fresh uuid, the current time). -/
def Task.from_dict (j : Json) (e : TaskEnv) : Option Task :=
  match j with
  | .obj kvs => some {
      title := getStr (jget "title" kvs) ""
      description := getStr (jget "description" kvs) ""
      due_date := getOptStr (jget "due_date" kvs)
      completed := getBool (jget "completed" kvs) false
      id := getStr (jget "id" kvs) (uuidHex e.idR)
      created_at := getStr (jget "created_at" kvs) e.nowC
      updated_at := getStr (jget "updated_at" kvs) e.nowU }
  | _ => none

/-! ### Serialization: `json.dumps(payload, ensure_ascii=False, indent=2)` -/

/-- Escaping of one character inside a JSON string literal
(`ensure_ascii=False`: only the quote, the backslash and control
characters are escaped). -/
def escapeChar (c : Char) : List Char :=
  if c = '"' then ['\\', '"']
  else if c = '\\' then ['\\', '\\']
  else if c = '\n' then ['\\', 'n']
  else if c = '\t' then ['\\', 't']
  else if c = '\r' then ['\\', 'r']
  else if c = '\x08' then ['\\', 'b']
  else if c = '\x0c' then ['\\', 'f']
  else if c.toNat < 32 then ['\\', 'u', '0', '0', hexDigit (c.toNat / 16), hexDigit (c.toNat % 16)]
  else [c]

/-- Escape a whole string body. -/
def escList : List Char → List Char
  | [] => []
  | c :: cs => escapeChar c ++ escList cs

/-- A JSON string literal with its quotes. -/
def strChars (s : String) : List Char := '"' :: (escList s.data ++ ['"'])

/-- The serialized `due_date` value (`null` or a string). -/
def dueChars : Option String → List Char
  | none => lit "null"
  | some d => strChars d

/-- The serialized boolean. -/
def boolChars : Bool → List Char
  | true => lit "true"
  | false => lit "false"

/-- One serialized `task.to_dict()` object as `json.dumps` renders it at
indent level 1 (members indented four spaces, closing brace two). -/
def taskChars (t : Task) : List Char :=
  '\x7b' :: '\n' ::
    (lit "    \"title\": " ++ strChars t.title ++
     lit ",\n    \"description\": " ++ strChars t.description ++
     lit ",\n    \"due_date\": " ++ dueChars t.due_date ++
     lit ",\n    \"completed\": " ++ boolChars t.completed ++
     lit ",\n    \"id\": " ++ strChars t.id ++
     lit ",\n    \"created_at\": " ++ strChars t.created_at ++
     lit ",\n    \"updated_at\": " ++ strChars t.updated_at ++
     lit "\n  \x7d")

/-- The comma-and-newline separated item lines of the top-level array. -/
def itemsChars : List Task → List Char
  | [] => []
  | [t] => lit "  " ++ taskChars t
  | t :: t2 :: ts => lit "  " ++ taskChars t ++ lit ",\n" ++ itemsChars (t2 :: ts)

/-- The full file content `TaskStorage.save` writes:
`json.dumps([task.to_dict() for task in tasks], ensure_ascii=False, indent=2)`. -/
def saveChars : List Task → List Char
  | [] => lit "[]"
  | t :: ts => '[' :: '\n' :: (itemsChars (t :: ts) ++ lit "\n]")

/-- The serialized items after the first one, each preceded by its
separator, followed by the closing newline and bracket.  (`saveChars` of a
non-empty list is two spaces, the first task, then `tailItemsChars` of the
rest, inside the array brackets.) -/
def tailItemsChars : List Task → List Char
  | [] => '\n' :: lit "]"
  | t :: ts => lit ",\n  " ++ (taskChars t ++ tailItemsChars ts)

/-- `TaskStorage.save` as the string written to the backing file. -/
def storage_save (ts : List Task) : String := String.mk (saveChars ts)

/-! ### Parsing: `json.loads` -/

/-- JSON insignificant whitespace. -/
def isWsChar (c : Char) : Bool := c = ' ' || c = '\t' || c = '\n' || c = '\r'

/-- Skip insignificant whitespace. -/
def skipWs : List Char → List Char
  | [] => []
  | c :: cs => if isWsChar c then skipWs cs else c :: cs

/-- Value of a hexadecimal digit character. -/
def hexVal (c : Char) : Option Nat :=
  if c.isDigit then some (c.toNat - 48)
  else if 'a' ≤ c && c ≤ 'f' then some (c.toNat - 87)
  else if 'A' ≤ c && c ≤ 'F' then some (c.toNat - 55)
  else none

/-- Decode one short escape sequence. -/
def escDecode (e : Char) : Option Char :=
  if e = 'n' then some '\n'
  else if e = 't' then some '\t'
  else if e = 'r' then some '\r'
  else if e = 'b' then some '\x08'
  else if e = 'f' then some '\x0c'
  else if e = '"' || e = '\\' || e = '/' then some e
  else none

/-- Parse the body of a JSON string literal after its opening quote;
bare control characters are rejected (strict mode). -/
def parseStringBody : List Char → Option (List Char × List Char)
  | [] => none
  | c :: cs =>
    if c = '"' then some ([], cs)
    else if c = '\\' then
      match cs with
      | 'u' :: a :: b :: c2 :: d :: cs2 =>
        match hexVal a, hexVal b, hexVal c2, hexVal d with
        | some ha, some hb, some hc, some hd =>
          (parseStringBody cs2).map
            (fun r => (Char.ofNat (((ha * 16 + hb) * 16 + hc) * 16 + hd) :: r.1, r.2))
        | _, _, _, _ => none
      | e :: cs2 =>
        match escDecode e with
        | some ch => (parseStringBody cs2).map (fun r => (ch :: r.1, r.2))
        | none => none
      | [] => none
    else if c.toNat < 32 then none
    else (parseStringBody cs).map (fun r => (c :: r.1, r.2))

/-- The integer part of CPython's json `NUMBER_RE`, `(0|[1-9]\d*)`:
a single `0`, or a nonzero digit followed by any digits (`01` matches only
its leading `0`, so `json.loads("01")` later fails on the extra data). -/
def parseIntRaw : List Char → Option (List Char × List Char)
  | '0' :: r => some (['0'], r)
  | c :: r =>
    if c.isDigit then
      match spanDigits r with
      | (ds, r2) => some (c :: ds, r2)
    else none
  | [] => none

/-- The optional fraction group `(\.\d+)?`: consumed only when a dot is
directly followed by at least one digit, otherwise the number ends here. -/
def parseFrac : List Char → List Char × List Char
  | '.' :: r =>
    match spanDigits r with
    | ([], _) => ([], '.' :: r)
    | (ds, r2) => ('.' :: ds, r2)
  | cs => ([], cs)

/-- The optional exponent group `([eE][-+]?\d+)?`: consumed only when the
`e`/`E` (and optional sign) is followed by at least one digit. -/
def parseExp : List Char → List Char × List Char
  | [] => ([], [])
  | e :: r =>
    if e = 'e' || e = 'E' then
      match r with
      | [] => ([], [e])
      | s :: r2 =>
        if s = '+' || s = '-' then
          match spanDigits r2 with
          | ([], _) => ([], e :: s :: r2)
          | (ds, r3) => (e :: s :: ds, r3)
        else
          match spanDigits r with
          | ([], _) => ([], e :: r)
          | (ds, r3) => (e :: ds, r3)
    else ([], e :: r)

/-- A JSON number as CPython's scanner accepts it: `NUMBER_RE` (an int
becomes `num`, a match with a fraction or exponent becomes a float), or
one of the constants `NaN`, `Infinity`, `-Infinity` accepted by the
default `parse_constant`. -/
def parseNum : List Char → Option (Json × List Char)
  | 'N' :: 'a' :: 'N' :: r => some (.fnum (lit "NaN"), r)
  | 'I' :: 'n' :: 'f' :: 'i' :: 'n' :: 'i' :: 't' :: 'y' :: r =>
    some (.fnum (lit "Infinity"), r)
  | '-' :: 'I' :: 'n' :: 'f' :: 'i' :: 'n' :: 'i' :: 't' :: 'y' :: r =>
    some (.fnum (lit "-Infinity"), r)
  | '-' :: cs =>
    match parseIntRaw cs with
    | none => none
    | some (ds, r2) =>
      match parseFrac r2 with
      | (fr, r3) =>
        match parseExp r3 with
        | (ex, r4) =>
          if fr.isEmpty && ex.isEmpty then some (.num (-(digitsVal ds : Int)), r4)
          else some (.fnum ('-' :: (ds ++ fr ++ ex)), r4)
  | cs =>
    match parseIntRaw cs with
    | none => none
    | some (ds, r2) =>
      match parseFrac r2 with
      | (fr, r3) =>
        match parseExp r3 with
        | (ex, r4) =>
          if fr.isEmpty && ex.isEmpty then some (.num (digitsVal ds : Int), r4)
          else some (.fnum (ds ++ fr ++ ex), r4)

mutual

/-- Parse one JSON value (fuelled recursion, dispatching on the first
significant character). -/
def parseValue : Nat → List Char → Option (Json × List Char)
  | 0, _ => none
  | fuel + 1, cs =>
    match skipWs cs with
    | [] => none
    | c :: r =>
      if c = 'n' then
        match r with
        | 'u' :: 'l' :: 'l' :: r2 => some (.null, r2)
        | _ => none
      else if c = 't' then
        match r with
        | 'r' :: 'u' :: 'e' :: r2 => some (.bool true, r2)
        | _ => none
      else if c = 'f' then
        match r with
        | 'a' :: 'l' :: 's' :: 'e' :: r2 => some (.bool false, r2)
        | _ => none
      else if c = '"' then (parseStringBody r).map (fun p => (.str (String.mk p.1), p.2))
      else if c = '[' then parseItems fuel r
      else if c = '\x7b' then parseMembers fuel r
      else parseNum (c :: r)

/-- Parse the inside of an array after `[`. -/
def parseItems : Nat → List Char → Option (Json × List Char)
  | 0, _ => none
  | fuel + 1, cs =>
    match skipWs cs with
    | [] => none
    | c :: r =>
      if c = ']' then some (.arr [], r)
      else
        match parseValue fuel (c :: r) with
        | none => none
        | some (v, r2) => parseItemsRest fuel [v] r2

/-- Parse `, value`* `]` after the first array element. -/
def parseItemsRest : Nat → List Json → List Char → Option (Json × List Char)
  | 0, _, _ => none
  | fuel + 1, acc, cs =>
    match skipWs cs with
    | [] => none
    | c :: r =>
      if c = ']' then some (.arr acc, r)
      else if c = ',' then
        match parseValue fuel r with
        | none => none
        | some (v, r2) => parseItemsRest fuel (acc ++ [v]) r2
      else none

/-- Parse the inside of an object after the opening brace. -/
def parseMembers : Nat → List Char → Option (Json × List Char)
  | 0, _ => none
  | fuel + 1, cs =>
    match skipWs cs with
    | [] => none
    | c :: r =>
      if c = '\x7d' then some (.obj [], r)
      else if c = '"' then
        match parseStringBody r with
        | none => none
        | some (k, r2) =>
          match skipWs r2 with
          | [] => none
          | c2 :: r3 =>
            if c2 = ':' then
              match parseValue fuel r3 with
              | none => none
              | some (v, r4) => parseMembersRest fuel [(String.mk k, v)] r4
            else none
      else none

/-- Parse `, "key": value`* and the closing brace after the first member. -/
def parseMembersRest : Nat → List (String × Json) → List Char → Option (Json × List Char)
  | 0, _, _ => none
  | fuel + 1, acc, cs =>
    match skipWs cs with
    | [] => none
    | c :: r =>
      if c = '\x7d' then some (.obj acc, r)
      else if c = ',' then
        match skipWs r with
        | [] => none
        | c2 :: r2 =>
          if c2 = '"' then
            match parseStringBody r2 with
            | none => none
            | some (k, r3) =>
              match skipWs r3 with
              | [] => none
              | c3 :: r4 =>
                if c3 = ':' then
                  match parseValue fuel r4 with
                  | none => none
                  | some (v, r5) => parseMembersRest fuel (acc ++ [(String.mk k, v)]) r5
                else none
          else none
      else none

end

/-- `json.loads`: parse one document with nothing but whitespace after it. -/
def json_loads (s : String) : Option Json :=
  match parseValue (s.data.length + 2) s.data with
  | none => none
  | some (v, r) => if skipWs r = [] then some v else none

/-! ### The store (`storage.py`) -/

/-- The state of the backing file. -/
inductive FileState where
  | missing
  | content (s : String)
deriving DecidableEq

/-- Python iteration over a parsed JSON value (`for item in data`):
arrays yield their items, dicts their keys, strings their characters;
anything else raises `TypeError` (`none`). -/
def pyIterItems : Json → Option (List Json)
  | .arr xs => some xs
  | .obj kvs => some (kvs.map (fun kv => Json.str kv.1))
  | .str s => some (s.data.map (fun c => Json.str (String.mk [c])))
  | _ => none

/-- `[Task.from_dict(item) for item in data]`; the environment stream
supplies the default draws of each position. -/
def loadItems (es : Nat → TaskEnv) : Nat → List Json → Option (List Task)
  | _, [] => some []
  | i, j :: rest =>
    match Task.from_dict j (es i) with
    | none => none
    | some t => (loadItems es (i + 1) rest).map (t :: ·)

/-- `TaskStorage.load`: `some tasks` is a normal return, `none` is an
uncaught exception escaping `load` (only `OSError` and `JSONDecodeError`
are caught). -/
def storage_load (fs : FileState) (es : Nat → TaskEnv) : Option (List Task) :=
  match fs with
  | .missing => some []
  | .content s =>
    if pyStrip s.data = [] then some []
    else
      match json_loads s with
      | none => some []
      | some v =>
        match pyIterItems v with
        | none => none
        | some items => loadItems es 0 items

/-- The file contents observable while `Path.write_text` is replacing the
old content with `s`: the file is truncated first, then written front to
back, so every prefix of `s` (including the empty one) can be seen. -/
def partialWrites (s : String) : List String :=
  (List.range (s.data.length + 1)).map (fun k => String.mk (s.data.take k))

/-! ### The handlers (`app.py`) -/

/-- Outcome of one request. -/
inductive Outcome where
  | success
  | rejected
  | crashed
deriving DecidableEq

/-- The request form fields the handlers read. -/
structure Form where
  title : String
  description : String
  due_date : String
  state : Option String
  completed : Option String

/-- Per-request environment: the draw stream for `load`, and the fresh
uuid draw and the `_now()` reads of this request. -/
structure ReqEnv where
  loadEnv : Nat → TaskEnv
  newId : Nat
  now1 : String
  now2 : String

/-- `validate_due_date`: strip; empty means no due date; otherwise the
text must parse as `%Y-%m-%d` (a failure is the `ValueError` the caller
catches), and the stripped text itself is stored. -/
def validate_due_date (raw : String) : Except Unit (Option String) :=
  let r := pyStripS raw
  if r = "" then .ok none
  else
    match parseDate r with
    | some _ => .ok (some r)
    | none => .error ()

/-- `apply_completion` (and `Task.mark_completed` / `mark_active`):
set the flag and refresh `updated_at` unconditionally. -/
def apply_completion (t : Task) (c : Bool) (now : String) : Task :=
  { t with completed := c, updated_at := now }

/-- `find_task`: first task with the given id, if any. -/
def find_task (ts : List Task) (tid : String) : Option Task :=
  ts.find? (fun t => t.id == tid)

/-- In-place mutation of the first task matching `p` inside the loaded
list (Python mutates the object `find_task` returned). -/
def updateFirst (p : Task → Bool) (f : Task → Task) : List Task → List Task
  | [] => []
  | t :: ts => if p t then f t :: ts else t :: updateFirst p f ts

/-- The `create_task` handler. -/
def create_task (fs : FileState) (form : Form) (env : ReqEnv) : FileState × Outcome :=
  match storage_load fs env.loadEnv with
  | none => (fs, .crashed)
  | some tasks =>
    let title := pyStripS form.title
    let description := pyStripS form.description
    let due_raw := pyStripS form.due_date
    if title = "" then (fs, .rejected)
    else
      match validate_due_date due_raw with
      | .error _ => (fs, .rejected)
      | .ok due =>
        (.content (storage_save (tasks ++
          [⟨title, description, due, false, uuidHex env.newId, env.now1, env.now2⟩])), .success)

/-- The `update_status` handler. -/
def update_status (fs : FileState) (task_id : String) (form : Form) (env : ReqEnv) :
    FileState × Outcome :=
  match storage_load fs env.loadEnv with
  | none => (fs, .crashed)
  | some tasks =>
    match find_task tasks task_id with
    | none => (fs, .rejected)
    | some _ =>
      match form.state with
      | none => (fs, .rejected)
      | some st =>
        if st == "completed" || st == "active" then
          (.content (storage_save (updateFirst (fun t => t.id == task_id)
            (fun t => apply_completion t (st == "completed") env.now1) tasks)), .success)
        else (fs, .rejected)

/-- The `update_task` handler. -/
def update_task (fs : FileState) (task_id : String) (form : Form) (env : ReqEnv) :
    FileState × Outcome :=
  match storage_load fs env.loadEnv with
  | none => (fs, .crashed)
  | some tasks =>
    match find_task tasks task_id with
    | none => (fs, .rejected)
    | some _ =>
      let title := pyStripS form.title
      let description := pyStripS form.description
      let due_raw := pyStripS form.due_date
      let comp := form.completed == some "1"
      if title = "" then (fs, .rejected)
      else
        match validate_due_date due_raw with
        | .error _ => (fs, .rejected)
        | .ok due =>
          (.content (storage_save (updateFirst (fun t => t.id == task_id)
            (fun t => apply_completion
              { t with title := title, description := description, due_date := due }
              comp env.now1) tasks)), .success)

/-- The `delete_task` handler. -/
def delete_task (fs : FileState) (task_id : String) (env : ReqEnv) : FileState × Outcome :=
  match storage_load fs env.loadEnv with
  | none => (fs, .crashed)
  | some tasks =>
    let remaining := tasks.filter (fun t => !(t.id == task_id))
    if remaining.length = tasks.length then (fs, .rejected)
    else (.content (storage_save remaining), .success)

/-! ### The view projection (`index`) -/

/-- The effective due-date sort key: Python's `task.due_date or "9999-12-31"`
(both an absent and an empty due date fall back to the sentinel). -/
def dueKeyChars (t : Task) : List Char :=
  match t.due_date with
  | some d => if d = "" then lit "9999-12-31" else d.data
  | none => lit "9999-12-31"

/-- `keyword in task.title.lower() or keyword in task.description.lower()`. -/
def searchKeep (keyword : List Char) (t : Task) : Bool :=
  containsSub keyword (lowerS t.title) || containsSub keyword (lowerS t.description)

/-- The search filter of `index`. -/
def applySearch (q : String) (ts : List Task) : List Task :=
  let search := pyStrip q.data
  if search = [] then ts
  else ts.filter (searchKeep (search.map Char.toLower))

/-- The status filter of `index`. -/
def applyStatus (status : String) (ts : List Task) : List Task :=
  if status = "active" then ts.filter (fun t => !t.completed)
  else if status = "completed" then ts.filter (fun t => t.completed)
  else ts

/-- `sort_key(task)`: the tuple `(task.completed, task.due_date or
"9999-12-31", task.updated_at)`. -/
def sortKey (t : Task) : Bool × List Char × List Char :=
  (t.completed, dueKeyChars t, t.updated_at.data)

/-- `sort_key(task) <= sort_key(other)` on the tuple
`(task.completed, due_key, task.updated_at)`, compared as Python compares
tuples of a bool and two strings. -/
def keyLE (a b : Task) : Bool :=
  if a.completed = b.completed then
    (if dueKeyChars a = dueKeyChars b then charsLe a.updated_at.data b.updated_at.data
     else charsLt (dueKeyChars a) (dueKeyChars b))
  else !a.completed

/-- The visible list of `index`: search filter, status filter, then
`sorted(..., key=sort_key)` (a stable ascending sort). -/
def visibleTasks (ts : List Task) (q status : String) : List Task :=
  List.mergeSort (applyStatus status (applySearch q ts)) keyLE

/-- `edit_task = find_task(tasks, edit_id) if edit_id else None`:
the lookup runs over the unfiltered list, and both an absent and an
empty `edit` parameter are falsy. -/
def editTarget (ts : List Task) (edit : Option String) : Option Task :=
  match edit with
  | none => none
  | some e => if e == "" then none else find_task ts e

/-- The whole `index` projection: the filtered, sorted visible list plus
the edit target. -/
def index (ts : List Task) (q status : String) (edit : Option String) :
    List Task × Option Task :=
  (visibleTasks ts q status, editTarget ts edit)

/-- The claim's combined keep-predicate, written from the specification's
words: a task is kept when (if the search text is non-empty) it contains
the search text case-insensitively in title or description, and it matches
the status filter (`active` keeps incomplete, `completed` keeps completed,
anything else keeps everything). -/
def claimKeeps (q status : String) (t : Task) : Bool :=
  (if pyStrip q.data = [] then true
   else searchKeep ((pyStrip q.data).map Char.toLower) t) &&
  (if status = "active" then !t.completed
   else if status = "completed" then t.completed
   else true)

/-! ### Concrete material for witnesses and counterexamples -/

/-- A concrete incomplete task with a due date. -/
def tA : Task :=
  ⟨"Buy milk", "from the store", some "2024-05-01", false, "aa11",
   "2024-01-01T10:00:00", "2024-01-02T10:00:00"⟩

/-- A concrete completed task without a due date. -/
def tB : Task :=
  ⟨"Pay rent", "", none, true, "bb22", "2024-01-01T10:00:00", "2024-01-01T09:00:00"⟩

/-- A concrete task whose persisted id is the empty string. -/
def tEmptyId : Task := ⟨"Stray", "", none, false, "", "t", "t"⟩

/-- A concrete task with the same sort key as `tA` but different content. -/
def tC : Task :=
  ⟨"Alpha", "", some "2024-05-01", false, "cc33",
   "2024-01-03T10:00:00", "2024-01-02T10:00:00"⟩

/-- A concrete environment stream for `load`. -/
def envA : Nat → TaskEnv := fun _ => ⟨0, "1970-01-01T00:00:00", "1970-01-01T00:00:00"⟩

/-- A concrete request environment. -/
def reqA : ReqEnv := ⟨envA, 5, "2024-06-01T12:00:00", "2024-06-01T12:00:00"⟩

/-! ## Basic lemmas: the string escape codec is an exact inverse pair -/

/-- `hexVal` reads back what `hexDigit` wrote. -/
theorem hexVal_hexDigit (n : Nat) (h : n < 16) : hexVal (hexDigit n) = some n := by
  interval_cases n <;> decide

/-- Parsing an escaped quote. -/
theorem psb_escQ (T : List Char) :
    parseStringBody ('\\' :: '"' :: T) =
      (parseStringBody T).map (fun r => ('"' :: r.1, r.2)) := rfl

/-- Parsing an escaped backslash. -/
theorem psb_escB (T : List Char) :
    parseStringBody ('\\' :: '\\' :: T) =
      (parseStringBody T).map (fun r => ('\\' :: r.1, r.2)) := rfl

/-- Parsing an escaped newline. -/
theorem psb_escN (T : List Char) :
    parseStringBody ('\\' :: 'n' :: T) =
      (parseStringBody T).map (fun r => ('\n' :: r.1, r.2)) := rfl

/-- Parsing an escaped tab. -/
theorem psb_escT (T : List Char) :
    parseStringBody ('\\' :: 't' :: T) =
      (parseStringBody T).map (fun r => ('\t' :: r.1, r.2)) := rfl

/-- Parsing an escaped carriage return. -/
theorem psb_escR (T : List Char) :
    parseStringBody ('\\' :: 'r' :: T) =
      (parseStringBody T).map (fun r => ('\r' :: r.1, r.2)) := rfl

/-- Parsing an escaped backspace. -/
theorem psb_esc8 (T : List Char) :
    parseStringBody ('\\' :: 'b' :: T) =
      (parseStringBody T).map (fun r => ('\x08' :: r.1, r.2)) := rfl

/-- Parsing an escaped form feed. -/
theorem psb_escF (T : List Char) :
    parseStringBody ('\\' :: 'f' :: T) =
      (parseStringBody T).map (fun r => ('\x0c' :: r.1, r.2)) := rfl

/-- Parsing a `\u00XY` escape with two symbolic hex digits. -/
theorem psb_escU (h1 h2 : Char) (v1 v2 : Nat) (T : List Char)
    (e1 : hexVal h1 = some v1) (e2 : hexVal h2 = some v2) :
    parseStringBody ('\\' :: 'u' :: '0' :: '0' :: h1 :: h2 :: T) =
      (parseStringBody T).map (fun r => (Char.ofNat (v1 * 16 + v2) :: r.1, r.2)) := by
  rw [parseStringBody.eq_2]
  rw [if_neg (by decide), if_pos rfl]
  rw [show hexVal '0' = some 0 from rfl, e1, e2]
  simp

/-- Every string body round-trips through `escapeChar` and
`parseStringBody`: the parser undoes the serializer's escaping for all
characters, not only plain ones. -/
theorem parseStringBody_escape (cs rest : List Char) :
    parseStringBody (escList cs ++ '"' :: rest) = some (cs, rest) := by
  induction cs with
  | nil =>
    rw [show escList [] ++ '"' :: rest = '"' :: rest from rfl, parseStringBody.eq_def]
    simp
  | cons c cs ih =>
    rw [escList, List.append_assoc]
    by_cases hq : c = '"'
    · subst hq
      rw [show escapeChar '"' = ['\\', '"'] from rfl, List.cons_append, List.cons_append,
        List.nil_append, psb_escQ, ih]
      rfl
    · by_cases hb : c = '\\'
      · subst hb
        rw [show escapeChar '\\' = ['\\', '\\'] from rfl, List.cons_append, List.cons_append,
          List.nil_append, psb_escB, ih]
        rfl
      · by_cases hn : c = '\n'
        · subst hn
          rw [show escapeChar '\n' = ['\\', 'n'] from rfl, List.cons_append, List.cons_append,
            List.nil_append, psb_escN, ih]
          rfl
        · by_cases ht : c = '\t'
          · subst ht
            rw [show escapeChar '\t' = ['\\', 't'] from rfl, List.cons_append,
              List.cons_append, List.nil_append, psb_escT, ih]
            rfl
          · by_cases hr : c = '\r'
            · subst hr
              rw [show escapeChar '\r' = ['\\', 'r'] from rfl, List.cons_append,
                List.cons_append, List.nil_append, psb_escR, ih]
              rfl
            · by_cases h8 : c = '\x08'
              · subst h8
                rw [show escapeChar '\x08' = ['\\', 'b'] from rfl, List.cons_append,
                  List.cons_append, List.nil_append, psb_esc8, ih]
                rfl
              · by_cases hfc : c = '\x0c'
                · subst hfc
                  rw [show escapeChar '\x0c' = ['\\', 'f'] from rfl, List.cons_append,
                    List.cons_append, List.nil_append, psb_escF, ih]
                  rfl
                · by_cases h32 : c.toNat < 32
                  · have hesc : escapeChar c =
                        ['\\', 'u', '0', '0', hexDigit (c.toNat / 16),
                         hexDigit (c.toNat % 16)] := by
                      simp [escapeChar, hq, hb, hn, ht, hr, h8, hfc, h32]
                    rw [hesc]
                    simp only [List.cons_append, List.nil_append]
                    rw [psb_escU _ _ (c.toNat / 16) (c.toNat % 16) _
                      (hexVal_hexDigit _ (by omega))
                      (hexVal_hexDigit _ (Nat.mod_lt _ (by norm_num))), ih]
                    have harith : c.toNat / 16 * 16 + c.toNat % 16 = c.toNat := by omega
                    rw [harith, Char.ofNat_toNat]
                    rfl
                  · have hesc : escapeChar c = [c] := by
                      simp [escapeChar, hq, hb, hn, ht, hr, h8, hfc, h32]
                    rw [hesc, List.cons_append, List.nil_append, parseStringBody.eq_def]
                    simp only [if_neg hq, if_neg hb, if_neg h32]
                    rw [ih]
                    rfl

/-- `from_dict` inverts `to_dict` exactly, whatever the environment. -/
theorem from_dict_to_dict (t : Task) (e : TaskEnv) :
    Task.from_dict (Task.to_dict t) e = some t := by
  cases t with
  | mk title description due_date completed id created_at updated_at =>
    cases due_date <;> rfl

/-! ## The sort comparator is a total preorder -/

/-- `charsLt` is irreflexive. -/
theorem charsLt_irrefl (a : List Char) : charsLt a a = false := by
  induction a with
  | nil => rfl
  | cons c cs ih => simp [charsLt, ih]

/-- `charsLt` is transitive. -/
theorem charsLt_trans {a b c : List Char} (h1 : charsLt a b = true)
    (h2 : charsLt b c = true) : charsLt a c = true := by
  induction a generalizing b c with
  | nil =>
    cases b with
    | nil => simp [charsLt] at h1
    | cons y ys =>
      cases c with
      | nil => simp [charsLt] at h2
      | cons z zs => simp [charsLt]
  | cons x xs ih =>
    cases b with
    | nil => simp [charsLt] at h1
    | cons y ys =>
      cases c with
      | nil => simp [charsLt] at h2
      | cons z zs =>
        simp only [charsLt] at h1 h2 ⊢
        by_cases hxy : x = y
        · subst hxy
          simp only [if_pos rfl] at h1
          by_cases hyz : x = z
          · subst hyz
            simp only [if_pos rfl] at h2 ⊢
            exact ih h1 h2
          · simp only [if_neg hyz] at h2 ⊢
            exact h2
        · simp only [if_neg hxy] at h1
          by_cases hyz : y = z
          · subst hyz
            simp only [if_neg hxy]
            exact h1
          · simp only [if_neg hyz] at h2
            have e1 : x.toNat < y.toNat := of_decide_eq_true h1
            have e2 : y.toNat < z.toNat := of_decide_eq_true h2
            have e3 : x.toNat < z.toNat := Nat.lt_trans e1 e2
            have hxz : ¬ x = z := by
              intro h
              subst h
              omega
            simp only [if_neg hxz]
            exact decide_eq_true e3

/-- Characters with equal code points are equal. -/
theorem char_toNat_inj {x y : Char} (h : x.toNat = y.toNat) : x = y := by
  have h2 := congrArg Char.ofNat h
  rwa [Char.ofNat_toNat, Char.ofNat_toNat] at h2

/-- `charsLt` is connected: two mutually non-smaller lists are equal. -/
theorem charsLt_conn {a b : List Char} (h1 : charsLt a b = false)
    (h2 : charsLt b a = false) : a = b := by
  induction a generalizing b with
  | nil =>
    cases b with
    | nil => rfl
    | cons y ys => simp [charsLt] at h1
  | cons x xs ih =>
    cases b with
    | nil => simp [charsLt] at h2
    | cons y ys =>
      by_cases hxy : x = y
      · subst hxy
        simp only [charsLt, if_pos rfl] at h1 h2
        rw [ih h1 h2]
      · exfalso
        have hyx : ¬ y = x := fun h => hxy h.symm
        simp only [charsLt, if_neg hxy] at h1
        simp only [charsLt, if_neg hyx] at h2
        have e1 : ¬ x.toNat < y.toNat := of_decide_eq_false h1
        have e2 : ¬ y.toNat < x.toNat := of_decide_eq_false h2
        exact hxy (char_toNat_inj (by omega))

/-- `charsLt` is asymmetric. -/
theorem charsLt_asymm {a b : List Char} (h : charsLt a b = true) : charsLt b a = false := by
  by_contra hc
  have hc2 : charsLt b a = true := by
    cases h2 : charsLt b a with
    | false => exact absurd h2 hc
    | true => rfl
  have := charsLt_trans h hc2
  rw [charsLt_irrefl] at this
  exact Bool.false_ne_true this

/-- `charsLe` is reflexive. -/
theorem charsLe_refl (a : List Char) : charsLe a a = true := by
  simp [charsLe, charsLt_irrefl]

/-- `charsLe` is transitive. -/
theorem charsLe_trans {a b c : List Char} (h1 : charsLe a b = true)
    (h2 : charsLe b c = true) : charsLe a c = true := by
  simp only [charsLe, Bool.not_eq_true'] at h1 h2 ⊢
  cases hab : charsLt a b with
  | true =>
    cases hca : charsLt c a with
    | true => exact absurd (charsLt_trans hca hab) (by rw [h2]; exact Bool.false_ne_true)
    | false => rfl
  | false =>
    have hab2 : a = b := charsLt_conn hab h1
    subst hab2
    exact h2

/-- `charsLe` is total. -/
theorem charsLe_total (a b : List Char) : (charsLe a b || charsLe b a) = true := by
  simp only [charsLe, Bool.or_eq_true, Bool.not_eq_true']
  cases hba : charsLt b a with
  | true => exact Or.inr (charsLt_asymm hba)
  | false => exact Or.inl rfl

/-- Transitivity of the two-component lexicographic comparison. -/
theorem lexLe_trans {d1 u1 d2 u2 d3 u3 : List Char}
    (h1 : (if d1 = d2 then charsLe u1 u2 else charsLt d1 d2) = true)
    (h2 : (if d2 = d3 then charsLe u2 u3 else charsLt d2 d3) = true) :
    (if d1 = d3 then charsLe u1 u3 else charsLt d1 d3) = true := by
  by_cases e12 : d1 = d2
  · by_cases e23 : d2 = d3
    · have e13 : d1 = d3 := e12.trans e23
      rw [if_pos e12] at h1
      rw [if_pos e23] at h2
      rw [if_pos e13]
      exact charsLe_trans h1 h2
    · have e13 : ¬ d1 = d3 := by rw [e12]; exact e23
      rw [if_neg e23] at h2
      rw [if_neg e13, e12]
      exact h2
  · by_cases e23 : d2 = d3
    · have e13 : ¬ d1 = d3 := by rw [← e23]; exact e12
      rw [if_neg e12] at h1
      rw [if_neg e13, ← e23]
      exact h1
    · rw [if_neg e12] at h1
      rw [if_neg e23] at h2
      have h3 := charsLt_trans h1 h2
      have e13 : ¬ d1 = d3 := by
        intro h
        subst h
        rw [charsLt_irrefl] at h3
        exact Bool.false_ne_true h3
      rw [if_neg e13]
      exact h3

/-- Totality of the two-component lexicographic comparison. -/
theorem lexLe_total (d1 u1 d2 u2 : List Char) :
    ((if d1 = d2 then charsLe u1 u2 else charsLt d1 d2) ||
     (if d2 = d1 then charsLe u2 u1 else charsLt d2 d1)) = true := by
  by_cases e : d1 = d2
  · rw [if_pos e, if_pos e.symm]
    exact charsLe_total u1 u2
  · rw [if_neg e, if_neg (fun h => e h.symm)]
    cases h12 : charsLt d1 d2 with
    | true => rfl
    | false =>
      cases h21 : charsLt d2 d1 with
      | true => rfl
      | false => exact absurd (charsLt_conn h12 h21) e

/-- The sort comparator is transitive. -/
theorem keyLE_trans (a b c : Task) (h1 : keyLE a b = true) (h2 : keyLE b c = true) :
    keyLE a c = true := by
  unfold keyLE at h1 h2 ⊢
  by_cases hab : a.completed = b.completed
  · by_cases hbc : b.completed = c.completed
    · rw [if_pos hab] at h1
      rw [if_pos hbc] at h2
      rw [if_pos (hab.trans hbc)]
      exact lexLe_trans h1 h2
    · rw [if_neg (fun h => hbc (hab.symm.trans h))]
      rw [if_neg hbc] at h2
      rw [hab]
      exact h2
  · by_cases hbc : b.completed = c.completed
    · rw [if_neg (fun h => hab (h.trans hbc.symm))]
      rw [if_neg hab] at h1
      exact h1
    · rw [if_neg hab] at h1
      rw [if_neg hbc] at h2
      refine absurd ?_ hab
      have e1 : a.completed = false := by simpa using h1
      have e2 : b.completed = false := by simpa using h2
      rw [e1, e2]

/-- The sort comparator is total. -/
theorem keyLE_total (a b : Task) : (keyLE a b || keyLE b a) = true := by
  unfold keyLE
  by_cases hab : a.completed = b.completed
  · rw [if_pos hab, if_pos hab.symm]
    exact lexLe_total _ _ _ _
  · rw [if_neg hab, if_neg (fun h => hab h.symm)]
    cases ha : a.completed <;> cases hb : b.completed
    · exact absurd (ha.trans hb.symm) hab
    · rfl
    · rfl
    · exact absurd (ha.trans hb.symm) hab

/-- Equal sort keys compare `le` both ways. -/
theorem keyLE_of_sortKey_eq {a b : Task} (h : sortKey a = sortKey b) : keyLE a b = true := by
  unfold sortKey at h
  have h1 : a.completed = b.completed := congrArg Prod.fst h
  have h2 : dueKeyChars a = dueKeyChars b := congrArg (fun p => p.2.1) h
  have h3 : a.updated_at.data = b.updated_at.data := congrArg (fun p => p.2.2) h
  unfold keyLE
  rw [if_pos h1, if_pos h2, h3]
  exact charsLe_refl _

/-! ## Symbolic execution of the parser on serialized output

Each step lemma is definitional: it runs the parser over a concrete
skeleton fragment until the next symbolic value. -/

/-- A quoted value after a space: open the string parse. -/
theorem pv_strOpen (g : Nat) (body : List Char) :
    parseValue (g + 1) (' ' :: '"' :: body) =
      (parseStringBody body).map (fun p => (Json.str (String.mk p.1), p.2)) := rfl

/-- Parsing a serialized string value (escapes included) preceded by a
space. -/
theorem parseValue_strSp (g : Nat) (s : String) (X : List Char) :
    parseValue (g + 1) (' ' :: (strChars s ++ X)) = some (.str s, X) := by
  rw [strChars]
  rw [show (' ' :: (('"' :: (escList s.data ++ ['"'])) ++ X)) =
    ' ' :: '"' :: (escList s.data ++ '"' :: X) by simp]
  rw [pv_strOpen, parseStringBody_escape]
  rfl

/-- Parsing `null` preceded by a space. -/
theorem parseValue_nullSp (g : Nat) (X : List Char) :
    parseValue (g + 1) (' ' :: (lit "null" ++ X)) = some (.null, X) := rfl

/-- Parsing `true` preceded by a space. -/
theorem parseValue_trueSp (g : Nat) (X : List Char) :
    parseValue (g + 1) (' ' :: (lit "true" ++ X)) = some (.bool true, X) := rfl

/-- Parsing `false` preceded by a space. -/
theorem parseValue_falseSp (g : Nat) (X : List Char) :
    parseValue (g + 1) (' ' :: (lit "false" ++ X)) = some (.bool false, X) := rfl

/-- Parsing a serialized `due_date` value preceded by a space. -/
theorem parseValue_dueSp (g : Nat) (o : Option String) (X : List Char) :
    parseValue (g + 1) (' ' :: (dueChars o ++ X)) = some (dueJson o, X) := by
  cases o with
  | none => exact parseValue_nullSp g X
  | some d => exact parseValue_strSp g d X

/-- Parsing a serialized boolean value preceded by a space. -/
theorem parseValue_boolSp (g : Nat) (b : Bool) (X : List Char) :
    parseValue (g + 1) (' ' :: (boolChars b ++ X)) = some (.bool b, X) := by
  cases b with
  | true => exact parseValue_trueSp g X
  | false => exact parseValue_falseSp g X

/-- Opening a serialized task object: consume the brace and the first key. -/
theorem pv_taskOpen (g : Nat) (tail : List Char) :
    parseValue (g + 2) ('\x7b' :: '\n' :: (lit "    \"title\": " ++ tail)) =
      (match parseValue g (' ' :: tail) with
       | none => none
       | some (v, r) => parseMembersRest g [("title", v)] r) := rfl

/-- One further member of a serialized task object: `description`. -/
theorem pmr_description (g : Nat) (acc : List (String × Json)) (tail : List Char) :
    parseMembersRest (g + 1) acc (lit ",\n    \"description\": " ++ tail) =
      (match parseValue g (' ' :: tail) with
       | none => none
       | some (v, r) => parseMembersRest g (acc ++ [("description", v)]) r) := rfl

/-- One further member of a serialized task object: `due_date`. -/
theorem pmr_due_date (g : Nat) (acc : List (String × Json)) (tail : List Char) :
    parseMembersRest (g + 1) acc (lit ",\n    \"due_date\": " ++ tail) =
      (match parseValue g (' ' :: tail) with
       | none => none
       | some (v, r) => parseMembersRest g (acc ++ [("due_date", v)]) r) := rfl

/-- One further member of a serialized task object: `completed`. -/
theorem pmr_completed (g : Nat) (acc : List (String × Json)) (tail : List Char) :
    parseMembersRest (g + 1) acc (lit ",\n    \"completed\": " ++ tail) =
      (match parseValue g (' ' :: tail) with
       | none => none
       | some (v, r) => parseMembersRest g (acc ++ [("completed", v)]) r) := rfl

/-- One further member of a serialized task object: `id`. -/
theorem pmr_id (g : Nat) (acc : List (String × Json)) (tail : List Char) :
    parseMembersRest (g + 1) acc (lit ",\n    \"id\": " ++ tail) =
      (match parseValue g (' ' :: tail) with
       | none => none
       | some (v, r) => parseMembersRest g (acc ++ [("id", v)]) r) := rfl

/-- One further member of a serialized task object: `created_at`. -/
theorem pmr_created_at (g : Nat) (acc : List (String × Json)) (tail : List Char) :
    parseMembersRest (g + 1) acc (lit ",\n    \"created_at\": " ++ tail) =
      (match parseValue g (' ' :: tail) with
       | none => none
       | some (v, r) => parseMembersRest g (acc ++ [("created_at", v)]) r) := rfl

/-- One further member of a serialized task object: `updated_at`. -/
theorem pmr_updated_at (g : Nat) (acc : List (String × Json)) (tail : List Char) :
    parseMembersRest (g + 1) acc (lit ",\n    \"updated_at\": " ++ tail) =
      (match parseValue g (' ' :: tail) with
       | none => none
       | some (v, r) => parseMembersRest g (acc ++ [("updated_at", v)]) r) := rfl

/-- Closing a serialized task object. -/
theorem pmr_close (g : Nat) (acc : List (String × Json)) (X : List Char) :
    parseMembersRest (g + 1) acc (lit "\n  \x7d" ++ X) = some (.obj acc, X) := rfl

/-- Parsing one serialized task object yields exactly `to_dict` of the
task, whatever its strings contain. -/
theorem parseValue_task (g : Nat) (t : Task) (X : List Char) :
    parseValue (g + 9) (taskChars t ++ X) = some (Task.to_dict t, X) := by
  simp only [taskChars, List.cons_append, List.append_assoc]
  rw [pv_taskOpen, parseValue_strSp]
  simp only
  rw [pmr_description, parseValue_strSp]
  simp only
  rw [pmr_due_date, parseValue_dueSp]
  simp only
  rw [pmr_completed, parseValue_boolSp]
  simp only
  rw [pmr_id, parseValue_strSp]
  simp only
  rw [pmr_created_at, parseValue_strSp]
  simp only
  rw [pmr_updated_at, parseValue_strSp]
  simp only
  rw [pmr_close]
  rfl

/-! ## Parsing the whole serialized collection -/

/-- Leading whitespace before a value is skipped. -/
theorem parseValue_skipWsPre (h : Nat) (X : List Char) :
    parseValue (h + 1) ('\n' :: ' ' :: ' ' :: X) = parseValue (h + 1) X := rfl

/-- An array separator step. -/
theorem pir_sep (g : Nat) (acc : List Json) (tail : List Char) :
    parseItemsRest (g + 1) acc (',' :: tail) =
      (match parseValue g tail with
       | none => none
       | some (v, r) => parseItemsRest g (acc ++ [v]) r) := rfl

/-- The closing newline and bracket of the array. -/
theorem pir_close (g : Nat) (acc : List Json) (X : List Char) :
    parseItemsRest (g + 1) acc ('\n' :: ']' :: X) = some (.arr acc, X) := rfl

/-- Opening bracket of an array value. -/
theorem pv_arrOpen (g : Nat) (tail : List Char) :
    parseValue (g + 1) ('[' :: tail) = parseItems g tail := rfl

/-- The first array item, preceded by the opening newline and indent. -/
theorem pi_taskFirst (g : Nat) (t : Task) (tail : List Char) :
    parseItems (g + 1) ('\n' :: ' ' :: ' ' :: (taskChars t ++ tail)) =
      (match parseValue g (taskChars t ++ tail) with
       | none => none
       | some (v, r) => parseItemsRest g [v] r) := rfl

/-- The items after the first parse to the tasks they serialize. -/
theorem parseItemsRest_chain (ts : List Task) (g : Nat) (acc : List Json) (X : List Char) :
    parseItemsRest (g + 10 * ts.length + 1) acc (tailItemsChars ts ++ X) =
      some (.arr (acc ++ ts.map Task.to_dict), X) := by
  induction ts generalizing g acc with
  | nil =>
    rw [show tailItemsChars [] ++ X = '\n' :: ']' :: X from rfl]
    rw [show g + 10 * List.length ([] : List Task) + 1 = g + 1 from by simp]
    rw [pir_close]
    simp
  | cons t ts ih =>
    have hsep : tailItemsChars (t :: ts) ++ X =
        ',' :: '\n' :: ' ' :: ' ' :: ((taskChars t ++ tailItemsChars ts) ++ X) := rfl
    rw [hsep, List.append_assoc]
    rw [show g + 10 * List.length (t :: ts) + 1 = (g + 10 * ts.length + 10) + 1 from by
      simp [List.length_cons]
      omega]
    rw [pir_sep, parseValue_skipWsPre]
    rw [show g + 10 * ts.length + 10 = (g + 10 * ts.length + 1) + 9 from rfl]
    rw [parseValue_task (g + 10 * ts.length + 1) t]
    simp only
    rw [show (g + 10 * ts.length + 1) + 9 = (g + 9) + 10 * ts.length + 1 from by omega]
    rw [ih (g + 9) (acc ++ [Task.to_dict t])]
    simp

/-- Shape of the items block followed by the closing bracket. -/
theorem itemsChars_shape (us : List Task) (u : Task) :
    itemsChars (u :: us) ++ lit "\n]" = ' ' :: ' ' :: (taskChars u ++ tailItemsChars us) := by
  induction us generalizing u with
  | nil => simp [itemsChars, tailItemsChars, lit, List.append_assoc]
  | cons u2 us ih =>
    have h2 : itemsChars (u :: u2 :: us) = ' ' :: ' ' ::
        (taskChars u ++ (',' :: '\n' :: itemsChars (u2 :: us))) := by
      simp [itemsChars, lit, List.append_assoc]
    rw [h2]
    simp only [List.cons_append, List.append_assoc]
    rw [ih u2]
    rfl

/-- Shape of the whole serialized non-empty collection. -/
theorem saveChars_shape (t : Task) (ts : List Task) :
    saveChars (t :: ts) = '[' :: '\n' :: ' ' :: ' ' :: (taskChars t ++ tailItemsChars ts) := by
  rw [saveChars, itemsChars_shape ts t]

/-- Parsing the exact output of `save` yields the serialized dictionaries. -/
theorem parseValue_save (ts : List Task) (g : Nat) :
    parseValue (g + 10 * ts.length + 3) (saveChars ts) =
      some (.arr (ts.map Task.to_dict), []) := by
  cases ts with
  | nil => rfl
  | cons t ts =>
    rw [saveChars_shape]
    rw [show g + 10 * List.length (t :: ts) + 3 = ((g + 10 * ts.length + 11) + 1) + 1 from by
      simp [List.length_cons]
      omega]
    rw [pv_arrOpen, pi_taskFirst]
    rw [show g + 10 * ts.length + 11 = (g + 10 * ts.length + 2) + 9 from rfl]
    rw [show taskChars t ++ tailItemsChars ts = taskChars t ++ (tailItemsChars ts ++ []) from by
      simp]
    rw [parseValue_task (g + 10 * ts.length + 2) t]
    simp only
    rw [show (g + 10 * ts.length + 2) + 9 = (g + 10) + 10 * ts.length + 1 from by omega]
    rw [parseItemsRest_chain ts (g + 10) [Task.to_dict t] []]
    simp

/-- The serialized collection is at least ten characters per task long. -/
theorem taskChars_len (t : Task) : 10 ≤ (taskChars t).length := by
  have h1 : (lit "    \"title\": ").length = 13 := rfl
  cases hdue : t.due_date <;>
    simp [taskChars, strChars, dueChars, hdue, List.length_append] <;> omega

/-- Length bound for the separated tail items. -/
theorem tailItemsChars_len (ts : List Task) :
    10 * ts.length + 2 ≤ (tailItemsChars ts).length := by
  induction ts with
  | nil => simp [tailItemsChars, lit]
  | cons t ts ih =>
    have ht := taskChars_len t
    simp only [tailItemsChars, List.length_append, List.length_cons]
    simp only [List.length_cons] at ih ⊢
    have hlit : (lit ",\n  ").length = 4 := rfl
    rw [hlit]
    omega

/-- Length bound for the whole serialized file. -/
theorem saveChars_len (ts : List Task) : 10 * ts.length + 1 ≤ (saveChars ts).length := by
  cases ts with
  | nil => simp [saveChars, lit]
  | cons t ts =>
    have h1 := taskChars_len t
    have h2 := tailItemsChars_len ts
    rw [saveChars_shape]
    simp only [List.length_cons, List.length_append]
    omega

/-- `json.loads` of the output of `save`. -/
theorem json_loads_save (ts : List Task) :
    json_loads (storage_save ts) = some (.arr (ts.map Task.to_dict)) := by
  unfold json_loads storage_save
  rw [show (String.mk (saveChars ts)).data = saveChars ts from rfl]
  have hlen := saveChars_len ts
  obtain ⟨g, hg⟩ : ∃ g, (saveChars ts).length + 2 = g + 10 * ts.length + 3 :=
    ⟨(saveChars ts).length - 10 * ts.length - 1, by omega⟩
  rw [hg, parseValue_save ts g]
  rfl

/-- Deserializing the dictionaries of a task list restores the tasks. -/
theorem loadItems_map (es : Nat → TaskEnv) (ts : List Task) (i : Nat) :
    loadItems es i (ts.map Task.to_dict) = some ts := by
  induction ts generalizing i with
  | nil => rfl
  | cons t ts ih =>
    rw [List.map_cons, loadItems, from_dict_to_dict t (es i), ih (i + 1)]
    rfl

/-- A string starting with a non-space character does not strip to empty. -/
theorem pyStrip_cons_ne (c : Char) (l : List Char) (h : isPySpace c = false) :
    pyStrip (c :: l) ≠ [] := by
  unfold pyStrip
  intro hc
  have h1 : List.dropWhile isPySpace (c :: l) = c :: l := by
    rw [List.dropWhile_cons, h]
    simp
  rw [h1] at hc
  have h2 : List.dropWhile isPySpace (c :: l).reverse = [] := by
    have := congrArg List.reverse hc
    simpa using this
  rw [List.dropWhile_eq_nil_iff] at h2
  have h3 : c ∈ (c :: l).reverse := by simp
  have h4 := h2 c h3
  rw [h] at h4
  exact Bool.false_ne_true h4

/-- Loading the file written by `save` restores exactly the saved tasks,
for every task collection and whatever environment draws the load uses. -/
theorem storage_load_save (ts : List Task) (es : Nat → TaskEnv) :
    storage_load (.content (storage_save ts)) es = some ts := by
  unfold storage_load
  simp only
  have hdata : (storage_save ts).data = saveChars ts := rfl
  have hhead : ∃ l, saveChars ts = '[' :: l := by
    cases ts with
    | nil => exact ⟨[']'], rfl⟩
    | cons t ts => exact ⟨_, saveChars_shape t ts⟩
  obtain ⟨l, hl⟩ := hhead
  have hne : pyStrip (storage_save ts).data ≠ [] := by
    rw [hdata, hl]
    exact pyStrip_cons_ne '[' l rfl
  rw [if_neg hne, json_loads_save ts]
  simp only
  rw [show pyIterItems (.arr (ts.map Task.to_dict)) = some (ts.map Task.to_dict) from rfl]
  simp only
  rw [loadItems_map]

/-! ## Records with missing keys -/

/-- `jget` and a key filter commute: a dropped key reads as absent, a kept
key reads as in the full record. -/
theorem jget_filter_eq (k : String) (keep : String → Bool) (kvs : List (String × Json)) :
    jget k (kvs.filter (fun kv => keep kv.1)) =
      if keep k = true then jget k kvs else none := by
  induction kvs with
  | nil => by_cases hk : keep k = true <;> simp [jget, hk]
  | cons kv rest ih =>
    obtain ⟨k2, v⟩ := kv
    by_cases h2 : keep k2 = true
    · have hf : List.filter (fun kv => keep kv.1) ((k2, v) :: rest) =
          (k2, v) :: List.filter (fun kv => keep kv.1) rest := by
        simp [List.filter_cons, h2]
      rw [hf]
      by_cases hk : keep k = true
      · rw [jget, ih, if_pos hk, if_pos hk, jget]
      · have hne : (k == k2) = false := by
          refine beq_eq_false_iff_ne.mpr ?_
          intro he
          subst he
          exact hk h2
        rw [jget, ih, if_neg hk, if_neg hk, hne]
        simp
    · have hf : List.filter (fun kv => keep kv.1) ((k2, v) :: rest) =
          List.filter (fun kv => keep kv.1) rest := by
        simp [List.filter_cons, h2]
      rw [hf, ih]
      by_cases hk : keep k = true
      · have hne : (k == k2) = false := by
          refine beq_eq_false_iff_ne.mpr ?_
          intro he
          subst he
          exact h2 hk
        rw [if_pos hk, if_pos hk, jget, hne]
        cases hrest : jget k rest <;> simp
      · rw [if_neg hk, if_neg hk]

/-- Key lookups in the full serialized record. -/
theorem jget_title (t : Task) : jget "title" t.toDictMembers = some (.str t.title) := rfl

/-- Key lookups in the full serialized record. -/
theorem jget_description (t : Task) :
    jget "description" t.toDictMembers = some (.str t.description) := rfl

/-- Key lookups in the full serialized record. -/
theorem jget_due_date (t : Task) :
    jget "due_date" t.toDictMembers = some (dueJson t.due_date) := rfl

/-- Key lookups in the full serialized record. -/
theorem jget_completed (t : Task) :
    jget "completed" t.toDictMembers = some (.bool t.completed) := rfl

/-- Key lookups in the full serialized record. -/
theorem jget_id (t : Task) : jget "id" t.toDictMembers = some (.str t.id) := rfl

/-- Key lookups in the full serialized record. -/
theorem jget_created_at (t : Task) :
    jget "created_at" t.toDictMembers = some (.str t.created_at) := rfl

/-- Key lookups in the full serialized record. -/
theorem jget_updated_at (t : Task) :
    jget "updated_at" t.toDictMembers = some (.str t.updated_at) := rfl

/-- Reading a possibly-dropped string key. -/
theorem getStr_ite (p : Prop) [Decidable p] (s dflt : String) :
    getStr (if p then some (.str s) else none) dflt = if p then s else dflt := by
  split <;> rfl

/-- Reading a possibly-dropped optional-string key. -/
theorem getOptStr_ite (p : Prop) [Decidable p] (o : Option String) :
    getOptStr (if p then some (dueJson o) else none) = if p then o else none := by
  split <;> cases o <;> rfl

/-- Reading a possibly-dropped boolean key. -/
theorem getBool_ite (p : Prop) [Decidable p] (b dflt : Bool) :
    getBool (if p then some (.bool b) else none) dflt = if p then b else dflt := by
  split <;> rfl

/-! ## Claim theorems -/

/-- Claim C6: for every valid task `t`, `from_record (to_record t)`
reproduces every field of `t` exactly; and for every record mapping with
any subset of the seven keys missing, `from_record` succeeds and fills
each missing key with its documented default (empty string for title and
description, absent due date, false for completed, a freshly generated id,
the current timestamps). -/
theorem claim6_record_roundtrip :
    (∀ (t : Task) (e : TaskEnv), Task.from_dict (Task.to_dict t) e = some t) ∧
    (∀ (keep : String → Bool) (t : Task) (e : TaskEnv),
      Task.from_dict (.obj ((Task.toDictMembers t).filter (fun kv => keep kv.1))) e =
        some ⟨(if keep "title" = true then t.title else ""),
              (if keep "description" = true then t.description else ""),
              (if keep "due_date" = true then t.due_date else none),
              (if keep "completed" = true then t.completed else false),
              (if keep "id" = true then t.id else uuidHex e.idR),
              (if keep "created_at" = true then t.created_at else e.nowC),
              (if keep "updated_at" = true then t.updated_at else e.nowU)⟩) := by
  constructor
  · exact from_dict_to_dict
  · intro keep t e
    show some _ = some _
    rw [jget_filter_eq, jget_filter_eq, jget_filter_eq, jget_filter_eq, jget_filter_eq,
      jget_filter_eq, jget_filter_eq]
    rw [jget_title, jget_description, jget_due_date, jget_completed, jget_id,
      jget_created_at, jget_updated_at]
    rw [getStr_ite, getStr_ite, getOptStr_ite, getBool_ite, getStr_ite, getStr_ite,
      getStr_ite]

/-- Claim C7: `is_overdue t today` is true exactly when the due date is
present, parses under `%Y-%m-%d`, lies strictly before `today`, and the
task is incomplete; it is false (and total, never raising) when the due
date is absent or malformed, when the date is not before today, or when
the task is completed. -/
theorem claim7_is_overdue (t : Task) (today : Nat × Nat × Nat) :
    is_overdue t today = true ↔
      ∃ d dd, t.due_date = some d ∧ parseDate d = some dd ∧ dateLt dd today = true ∧
        t.completed = false := by
  unfold is_overdue
  cases hdue : t.due_date with
  | none => simp
  | some d =>
    by_cases hd : d = ""
    · subst hd
      have hpd : parseDate "" = none := rfl
      simp [hpd]
    · cases hcomp : t.completed with
      | true => simp [hd]
      | false =>
        cases hpd : parseDate d with
        | none => simp [hd, hpd]
        | some dd =>
          obtain ⟨y, m, dy⟩ := dd
          simp [hd, hpd]
          constructor
          · intro h
            exact ⟨y, m, dy, ⟨rfl, rfl, rfl⟩, h⟩
          · rintro ⟨a, b, c, ⟨rfl, rfl, rfl⟩, h⟩
            exact h

/-- Claim C7 witness: a concrete incomplete task with a past due date is
overdue. -/
theorem claim7_witness : is_overdue tA (2024, 5, 2) = true :=
  (claim7_is_overdue tA (2024, 5, 2)).mpr
    ⟨"2024-05-01", (2024, 5, 1), rfl, by decide, by decide, rfl⟩

/-- Claim C9: `set_completed` (the `apply_completion` helper backed by
`Task.mark_completed`/`mark_active`) sets the completion flag and
refreshes `updated_at` even when the target value equals the current one,
touching no other field; and setting a task completed and then active
again ends with `completed = false` and an `updated_at` strictly greater
than before the two calls, whenever the clock has progressed strictly
across them. -/
theorem claim9_set_completed (t : Task) (v : Bool) (n1 n2 : String)
    (hclock : charsLt t.updated_at.data n2.data = true) :
    (apply_completion t v n1).completed = v ∧
    (apply_completion t v n1).updated_at = n1 ∧
    (apply_completion t v n1).title = t.title ∧
    (apply_completion t v n1).description = t.description ∧
    (apply_completion t v n1).due_date = t.due_date ∧
    (apply_completion t v n1).id = t.id ∧
    (apply_completion t v n1).created_at = t.created_at ∧
    (apply_completion (apply_completion t true n1) false n2).completed = false ∧
    (apply_completion (apply_completion t true n1) false n2).updated_at = n2 ∧
    charsLt t.updated_at.data
      (apply_completion (apply_completion t true n1) false n2).updated_at.data = true :=
  ⟨rfl, rfl, rfl, rfl, rfl, rfl, rfl, rfl, rfl, hclock⟩

/-- Claim C9 witness: completing then reactivating a concrete task under a
strictly advancing clock. -/
theorem claim9_witness :
    (apply_completion (apply_completion tA true "2024-06-01T12:00:00") false
      "2024-06-02T09:00:00").completed = false ∧
    charsLt tA.updated_at.data
      (apply_completion (apply_completion tA true "2024-06-01T12:00:00") false
        "2024-06-02T09:00:00").updated_at.data = true := by
  have h := claim9_set_completed tA true "2024-06-01T12:00:00" "2024-06-02T09:00:00"
    (by decide)
  exact ⟨h.2.2.2.2.2.2.2.1, h.2.2.2.2.2.2.2.2.2⟩

/-- Claim C8 counterexample: with a persisted task whose id is the empty
string, the supplied edit id `""` is falsy in `if edit_id`, so the code
returns no edit target although lookup by id in the unfiltered list would
find the task. -/
theorem claim8_counterexample :
    (index [tEmptyId] "" "all" (some "")).2 = none ∧
    find_task [tEmptyId] "" = some tEmptyId ∧
    (index [tEmptyId] "" "all" (some "")).2 ≠ find_task [tEmptyId] "" := by
  refine ⟨rfl, rfl, ?_⟩
  decide

/-- Claim C8 (amended): a supplied *non-empty* `edit_id` is resolved by id
lookup in the unfiltered original list, whatever the search and status
filters; when `edit_id` is absent — or supplied as the empty string, which
the code treats as absent — there is no edit target. -/
theorem claim8_edit_resolution (ts : List Task) (q status : String) :
    (∀ e : String, e ≠ "" → (index ts q status (some e)).2 = find_task ts e) ∧
    (index ts q status none).2 = none ∧
    (index ts q status (some "")).2 = none := by
  refine ⟨?_, rfl, rfl⟩
  intro e he
  show editTarget ts (some e) = find_task ts e
  unfold editTarget
  simp only
  rw [show (e == "") = false from beq_eq_false_iff_ne.mpr he]
  simp

/-- Claim C8 witness: the target of a non-empty edit id is found even when
the search filter excludes it from the visible list. -/
theorem claim8_witness : (index [tA, tB] "milk" "completed" (some "bb22")).2 = some tB := by
  rw [(claim8_edit_resolution [tA, tB] "milk" "completed").1 "bb22" (by decide)]
  rfl

/-- Claim C10: blank or whitespace-only due-date text is accepted — create
and update succeed given a valid title and store an absent due date —
while only non-blank text failing `%Y-%m-%d` parsing is rejected. -/
theorem claim10_blank_due :
    (∀ s : String, pyStripS s = "" → validate_due_date s = .ok none) ∧
    (∀ s : String, pyStripS s ≠ "" → parseDate (pyStripS s) = none →
      validate_due_date s = .error ()) ∧
    (∀ (fs : FileState) (ts : List Task) (form : Form) (env : ReqEnv),
      storage_load fs env.loadEnv = some ts → pyStripS form.title ≠ "" →
      pyStripS form.due_date = "" →
      create_task fs form env = (.content (storage_save (ts ++
        [⟨pyStripS form.title, pyStripS form.description, none, false,
          uuidHex env.newId, env.now1, env.now2⟩])), .success)) ∧
    (∀ (fs : FileState) (ts : List Task) (tid : String) (form : Form) (env : ReqEnv)
      (t0 : Task),
      storage_load fs env.loadEnv = some ts → find_task ts tid = some t0 →
      pyStripS form.title ≠ "" → pyStripS form.due_date = "" →
      update_task fs tid form env = (.content (storage_save
        (updateFirst (fun t => t.id == tid)
          (fun t => apply_completion
            { t with title := pyStripS form.title,
                     description := pyStripS form.description,
                     due_date := none }
            (form.completed == some "1") env.now1) ts)), .success)) := by
  refine ⟨?_, ?_, ?_, ?_⟩
  · intro s h
    simp [validate_due_date, h]
  · intro s h1 h2
    simp [validate_due_date, h1, h2]
  · intro fs ts form env hload htitle hdue
    unfold create_task
    rw [hload]
    simp only
    rw [if_neg htitle]
    rw [show validate_due_date (pyStripS form.due_date) = .ok none from by
      rw [hdue]
      rfl]
  · intro fs ts tid form env t0 hload hfind htitle hdue
    unfold update_task
    rw [hload]
    simp only
    rw [hfind]
    simp only
    rw [if_neg htitle]
    rw [show validate_due_date (pyStripS form.due_date) = .ok none from by
      rw [hdue]
      rfl]

/-- Claim C10 witness: creating a task with whitespace-only due-date text
succeeds and stores no due date. -/
theorem claim10_witness :
    create_task .missing ⟨"Buy milk", "d", "   ", none, none⟩ reqA =
      (.content (storage_save
        [⟨"Buy milk", "d", none, false, uuidHex 5,
          "2024-06-01T12:00:00", "2024-06-01T12:00:00"⟩]), .success) := by
  have h := claim10_blank_due.2.2.1 .missing [] ⟨"Buy milk", "d", "   ", none, none⟩ reqA
    rfl (by decide) (by decide)
  simpa using h

/-- Claim C5: every rejected command — create or update with an
empty/whitespace title or malformed due date, set-status, update or delete
with an unknown id, or set-status with an unrecognized state value —
leaves the persisted file state byte-for-byte unchanged (no save occurs),
and more generally every non-successful request leaves it unchanged, so no
task field is ever partially applied. -/
theorem claim5_rejection_preserves_state :
    (∀ (fs : FileState) (form : Form) (env : ReqEnv),
      (create_task fs form env).2 ≠ .success → (create_task fs form env).1 = fs) ∧
    (∀ (fs : FileState) (tid : String) (form : Form) (env : ReqEnv),
      (update_status fs tid form env).2 ≠ .success → (update_status fs tid form env).1 = fs) ∧
    (∀ (fs : FileState) (tid : String) (form : Form) (env : ReqEnv),
      (update_task fs tid form env).2 ≠ .success → (update_task fs tid form env).1 = fs) ∧
    (∀ (fs : FileState) (tid : String) (env : ReqEnv),
      (delete_task fs tid env).2 ≠ .success → (delete_task fs tid env).1 = fs) ∧
    (∀ (fs : FileState) (ts : List Task) (form : Form) (env : ReqEnv),
      storage_load fs env.loadEnv = some ts → pyStripS form.title = "" →
      create_task fs form env = (fs, .rejected)) ∧
    (∀ (fs : FileState) (ts : List Task) (form : Form) (env : ReqEnv),
      storage_load fs env.loadEnv = some ts →
      validate_due_date (pyStripS form.due_date) = .error () →
      create_task fs form env = (fs, .rejected)) ∧
    (∀ (fs : FileState) (ts : List Task) (tid : String) (form : Form) (env : ReqEnv),
      storage_load fs env.loadEnv = some ts → find_task ts tid = none →
      update_status fs tid form env = (fs, .rejected)) ∧
    (∀ (fs : FileState) (ts : List Task) (tid : String) (form : Form) (env : ReqEnv)
      (t0 : Task),
      storage_load fs env.loadEnv = some ts → find_task ts tid = some t0 →
      (∀ st, form.state = some st → (st == "completed" || st == "active") = false) →
      update_status fs tid form env = (fs, .rejected)) ∧
    (∀ (fs : FileState) (ts : List Task) (tid : String) (form : Form) (env : ReqEnv),
      storage_load fs env.loadEnv = some ts → find_task ts tid = none →
      update_task fs tid form env = (fs, .rejected)) ∧
    (∀ (fs : FileState) (ts : List Task) (tid : String) (form : Form) (env : ReqEnv)
      (t0 : Task),
      storage_load fs env.loadEnv = some ts → find_task ts tid = some t0 →
      pyStripS form.title = "" →
      update_task fs tid form env = (fs, .rejected)) ∧
    (∀ (fs : FileState) (ts : List Task) (tid : String) (form : Form) (env : ReqEnv)
      (t0 : Task),
      storage_load fs env.loadEnv = some ts → find_task ts tid = some t0 →
      pyStripS form.title ≠ "" →
      validate_due_date (pyStripS form.due_date) = .error () →
      update_task fs tid form env = (fs, .rejected)) ∧
    (∀ (fs : FileState) (ts : List Task) (tid : String) (env : ReqEnv),
      storage_load fs env.loadEnv = some ts → (∀ t ∈ ts, (t.id == tid) = false) →
      delete_task fs tid env = (fs, .rejected)) := by
  refine ⟨?_, ?_, ?_, ?_, ?_, ?_, ?_, ?_, ?_, ?_, ?_, ?_⟩
  · intro fs form env h
    unfold create_task at h ⊢
    cases hl : storage_load fs env.loadEnv with
    | none => rfl
    | some ts =>
      rw [hl] at h
      simp only at h ⊢
      by_cases ht : pyStripS form.title = ""
      · rw [if_pos ht]
      · rw [if_neg ht] at h ⊢
        cases hv : validate_due_date (pyStripS form.due_date) with
        | error e => rfl
        | ok due =>
          rw [hv] at h
          exact absurd rfl h
  · intro fs tid form env h
    unfold update_status at h ⊢
    cases hl : storage_load fs env.loadEnv with
    | none => rfl
    | some ts =>
      rw [hl] at h
      simp only at h ⊢
      cases hf : find_task ts tid with
      | none => rfl
      | some t0 =>
        rw [hf] at h
        simp only at h ⊢
        cases hst : form.state with
        | none => rfl
        | some st =>
          rw [hst] at h
          simp only at h ⊢
          by_cases hok : (st == "completed" || st == "active") = true
          · rw [if_pos hok] at h
            exact absurd rfl h
          · rw [if_neg hok]
  · intro fs tid form env h
    unfold update_task at h ⊢
    cases hl : storage_load fs env.loadEnv with
    | none => rfl
    | some ts =>
      rw [hl] at h
      simp only at h ⊢
      cases hf : find_task ts tid with
      | none => rfl
      | some t0 =>
        rw [hf] at h
        simp only at h ⊢
        by_cases ht : pyStripS form.title = ""
        · rw [if_pos ht]
        · rw [if_neg ht] at h ⊢
          cases hv : validate_due_date (pyStripS form.due_date) with
          | error e => rfl
          | ok due =>
            rw [hv] at h
            exact absurd rfl h
  · intro fs tid env h
    unfold delete_task at h ⊢
    cases hl : storage_load fs env.loadEnv with
    | none => rfl
    | some ts =>
      rw [hl] at h
      simp only at h ⊢
      by_cases hlen : (ts.filter (fun t => !(t.id == tid))).length = ts.length
      · rw [if_pos hlen]
      · rw [if_neg hlen] at h
        exact absurd rfl h
  · intro fs ts form env hload ht
    unfold create_task
    rw [hload]
    simp only
    rw [if_pos ht]
  · intro fs ts form env hload hv
    unfold create_task
    rw [hload]
    simp only
    by_cases ht : pyStripS form.title = ""
    · rw [if_pos ht]
    · rw [if_neg ht, hv]
  · intro fs ts tid form env hload hf
    unfold update_status
    rw [hload]
    simp only
    rw [hf]
  · intro fs ts tid form env t0 hload hf hst
    unfold update_status
    rw [hload]
    simp only
    rw [hf]
    simp only
    cases hs : form.state with
    | none => rfl
    | some st =>
      simp only
      rw [if_neg (by rw [hst st hs]; exact Bool.false_ne_true)]
  · intro fs ts tid form env hload hf
    unfold update_task
    rw [hload]
    simp only
    rw [hf]
  · intro fs ts tid form env t0 hload hf ht
    unfold update_task
    rw [hload]
    simp only
    rw [hf]
    simp only
    rw [if_pos ht]
  · intro fs ts tid form env t0 hload hf ht hv
    unfold update_task
    rw [hload]
    simp only
    rw [hf]
    simp only
    rw [if_neg ht, hv]
  · intro fs ts tid env hload hall
    unfold delete_task
    rw [hload]
    simp only
    rw [show ts.filter (fun t => !(t.id == tid)) = ts from
      List.filter_eq_self.mpr (fun t hmem => by rw [hall t hmem]; rfl)]
    rw [if_pos rfl]

/-- Claim C5 witness: deleting an unknown id from a concrete stored
collection leaves the file untouched and signals a rejection. -/
theorem claim5_witness :
    delete_task (.content (storage_save [tA])) "zzzz" reqA =
      (.content (storage_save [tA]), .rejected) := by
  have h := claim5_rejection_preserves_state.2.2.2.2.2.2.2.2.2.2.2
    (.content (storage_save [tA])) [tA] "zzzz" reqA
    (storage_load_save [tA] envA) (by decide)
  exact h

/-! ## Claims C3 and C2: store tolerance and non-atomic overwrite -/

/-- Claim C2 counterexample: `save` truncates and rewrites the file in
place, so the empty file is an observable state of an interrupted save;
loading it yields the empty collection — neither the previous collection
`[tA]` (which the file held before the save) nor the new one `[tA, tB]`. -/
theorem claim2_counterexample :
    ("" ∈ partialWrites (storage_save [tA, tB])) ∧
    storage_load (.content (storage_save [tA])) envA = some [tA] ∧
    storage_load (.content "") envA = some [] ∧
    storage_load (.content "") envA ≠ some [tA] ∧
    storage_load (.content "") envA ≠ some [tA, tB] := by
  refine ⟨?_, storage_load_save [tA] envA, rfl, by decide, by decide⟩
  exact List.mem_map.mpr ⟨0, List.mem_range.mpr (by omega), rfl⟩

/-- Claim C2 (amended): `save` overwrites the backing file in place with
the complete serialization — after a completed save, a load returns
exactly the saved collection, whatever draws the load environment uses —
but the overwrite is not atomic: an interrupted save exposes exactly the
prefixes of the new content (including the truncated empty file, which a
subsequent load reads as the empty collection, not as the previous one). -/
theorem claim2_save_load (ts : List Task) (es : Nat → TaskEnv) :
    storage_load (.content (storage_save ts)) es = some ts ∧
    ("" ∈ partialWrites (storage_save ts)) ∧
    (∀ w ∈ partialWrites (storage_save ts),
      ∃ k, w = String.mk ((storage_save ts).data.take k)) ∧
    storage_load (.content "") es = some [] := by
  refine ⟨storage_load_save ts es, ?_, ?_, rfl⟩
  · exact List.mem_map.mpr ⟨0, List.mem_range.mpr (by omega), rfl⟩
  · intro w hw
    obtain ⟨k, hk, hkw⟩ := List.mem_map.mp hw
    exact ⟨k, hkw.symm⟩

/-- Claim C2 witness: saving a concrete two-task collection and loading it
back returns exactly those tasks. -/
theorem claim2_witness :
    storage_load (.content (storage_save [tA, tB])) envA = some [tA, tB] :=
  (claim2_save_load [tA, tB] envA).1

/-! ## Claim C4: create followed by load -/

/-- A generated uuid is never the empty string (it has 32 hex digits). -/
theorem uuidHex_ne_empty (r : Nat) : uuidHex r ≠ "" := by
  intro h
  have h2 := congrArg String.data h
  simp [uuidHex] at h2

/-- Claim C4: executing create (with a valid non-empty title and a
valid-or-absent due date) and then load yields the previous tasks followed
by one new task carrying exactly the submitted title, description and due
date, a non-empty id distinct from every other task's id in the
collection, and `created_at = updated_at` (the two clock reads of the
request agreeing). -/
theorem claim4_create_then_load (fs : FileState) (ts : List Task) (form : Form)
    (env : ReqEnv) (es2 : Nat → TaskEnv) (due : Option String)
    (hload : storage_load fs env.loadEnv = some ts)
    (htitle : pyStripS form.title ≠ "")
    (hdue : validate_due_date (pyStripS form.due_date) = .ok due)
    (hnow : env.now1 = env.now2)
    (hfresh : ∀ t ∈ ts, t.id ≠ uuidHex env.newId) :
    ∃ t : Task,
      create_task fs form env = (.content (storage_save (ts ++ [t])), .success) ∧
      storage_load (.content (storage_save (ts ++ [t]))) es2 = some (ts ++ [t]) ∧
      t.title = pyStripS form.title ∧
      t.description = pyStripS form.description ∧
      t.due_date = due ∧
      t.completed = false ∧
      t.id ≠ "" ∧
      (∀ u ∈ ts, u.id ≠ t.id) ∧
      t.created_at = t.updated_at := by
  refine ⟨⟨pyStripS form.title, pyStripS form.description, due, false,
    uuidHex env.newId, env.now1, env.now2⟩, ?_, storage_load_save _ es2, rfl, rfl, rfl, rfl,
    uuidHex_ne_empty env.newId, ?_, hnow⟩
  · unfold create_task
    rw [hload]
    simp only
    rw [if_neg htitle, hdue]
  · intro u hu
    exact hfresh u hu

/-- Claim C4 witness: creating a concrete task (whose title even carries a
quote and whose description spans two lines) in an empty store, then
loading the file back. -/
theorem claim4_witness :
    ∃ t : Task,
      create_task .missing
        ⟨" Buy \"whole\" milk ", " from the store\nbefore noon ", " 2024-05-01 ", none, none⟩
        reqA = (.content (storage_save ([] ++ [t])), .success) ∧
      storage_load (.content (storage_save ([] ++ [t]))) envA = some ([] ++ [t]) ∧
      t.title = pyStripS " Buy \"whole\" milk " ∧
      t.description = pyStripS " from the store\nbefore noon " ∧
      t.due_date = some "2024-05-01" ∧
      t.completed = false ∧
      t.id ≠ "" ∧
      (∀ u ∈ ([] : List Task), u.id ≠ t.id) ∧
      t.created_at = t.updated_at :=
  claim4_create_then_load .missing []
    ⟨" Buy \"whole\" milk ", " from the store\nbefore noon ", " 2024-05-01 ", none, none⟩
    reqA envA (some "2024-05-01") rfl (by decide) rfl rfl (by simp)

/-! ## Claim C1: the view projection -/

/-- The two sequential filters of `index` equal one filter by the claim's
combined keep-predicate. -/
theorem visible_filter_eq (ts : List Task) (q status : String) :
    applyStatus status (applySearch q ts) = ts.filter (claimKeeps q status) := by
  unfold applySearch applyStatus claimKeeps
  by_cases hq : pyStrip q.data = []
  · by_cases hs1 : status = "active"
    · simp [hq, hs1]
    · by_cases hs2 : status = "completed"
      · simp [hq, hs1, hs2]
      · simp [hq, hs1, hs2]
  · by_cases hs1 : status = "active"
    · simp [hq, hs1, List.filter_filter, Bool.and_comm]
    · by_cases hs2 : status = "completed"
      · simp [hq, hs1, hs2, List.filter_filter, Bool.and_comm]
      · simp [hq, hs1, hs2]

/-- Claim C1: for every task list and query input, the visible list of the
view projection contains exactly those tasks that match the
case-insensitive search over title and description (when the search text
is non-empty) and the status filter (`active` keeps incomplete tasks,
`completed` keeps completed ones, `all` or anything unrecognized keeps
everything): it is a permutation of the filtered input, it is sorted
ascending by the tuple (completed flag, due date with the far-future
sentinel `9999-12-31` when falsy, updated_at), and any two kept tasks with
equal sort tuples keep their relative input order. -/
theorem claim1_view_projection (ts : List Task) (q status : String) (edit : Option String) :
    ((index ts q status edit).1).Perm (ts.filter (claimKeeps q status)) ∧
    ((index ts q status edit).1).Pairwise (fun a b => keyLE a b = true) ∧
    (∀ a b : Task, sortKey a = sortKey b →
      [a, b].Sublist (ts.filter (claimKeeps q status)) →
      [a, b].Sublist (index ts q status edit).1) := by
  refine ⟨?_, ?_, ?_⟩
  · show (visibleTasks ts q status).Perm _
    unfold visibleTasks
    rw [visible_filter_eq]
    exact List.mergeSort_perm _ _
  · show (visibleTasks ts q status).Pairwise _
    unfold visibleTasks
    exact List.sorted_mergeSort keyLE_trans keyLE_total _
  · intro a b hkey hsub
    show [a, b].Sublist (visibleTasks ts q status)
    unfold visibleTasks
    rw [visible_filter_eq]
    refine List.sublist_mergeSort keyLE_trans keyLE_total ?_ hsub
    refine List.pairwise_cons.mpr ⟨?_, List.pairwise_singleton _ _⟩
    intro b2 hb2
    rw [List.mem_singleton.mp hb2]
    exact keyLE_of_sortKey_eq hkey

/-- Claim C1 witness: with an empty search and the `all` status, two
distinct tasks sharing one sort key keep their input order in the visible
list. -/
theorem claim1_witness :
    [tA, tC].Sublist (index [tA, tC, tB] "" "all" none).1 :=
  (claim1_view_projection [tA, tC, tB] "" "all" none).2.2 tA tC (by decide) (by decide)

end Todo
